import Mathlib

/-!
Verification of the cursor/selection synchronization core of vscode-neovim
(`src/cursor_manager.ts`): a shallow embedding of the `CursorManager` class
and proofs about its reveal policy, its selection-change handler, its redraw
batch dispatcher and its disposal behaviour.

Coordinates are modelled with `Nat` (VSCode lines/characters are non-negative
and the TypeScript arithmetic on them stays within exact double range).
-/

namespace VCN

/-- A zero-based VSCode position (`vscode.Position`): line and character. -/
structure Pos where
  line : Nat
  character : Nat
  deriving DecidableEq, Repr

/-- A VSCode selection: anchor and active position (`vscode.Selection`). -/
structure Sel where
  anchor : Pos
  active : Pos
  deriving DecidableEq, Repr

/-- A VSCode range with start and end position; the `end` field of
`vscode.Range` is called `stop` here because `end` is a Lean keyword. -/
structure VRange where
  start : Pos
  stop : Pos
  deriving DecidableEq, Repr

/-- `Position.isBeforeOrEqual`: lexicographic order on (line, character). -/
def posLeb (a b : Pos) : Bool :=
  decide (a.line < b.line ∨ (a.line = b.line ∧ a.character ≤ b.character))

/-- `Range.contains` for a single position: `start ≤ p ≤ end`. A collapsed
range (such as the collapsed reveal selection) is contained iff its point is. -/
def rangeContainsPos (r : VRange) (p : Pos) : Bool :=
  posLeb r.start p && posLeb p r.stop

/-- `vscode.TextEditorRevealType` values used by the cursor manager. -/
inductive RevealType where
  | default
  | atTop
  | inCenter
  deriving DecidableEq, Repr

/-- The slice of `vscode.TextEditor` state the cursor manager reads and
writes: the selection list and the primary visible range
(`editor.visibleRanges[0]`). -/
structure Editor where
  selections : List Sel
  visibleRange : VRange
  deriving DecidableEq, Repr

/-- `CursorManager.updateCursorPosInEditor` (the CursorRenderer). Replaces the
editor's selections with a single collapsed selection at `(newLine, newCol)`
and picks a reveal decision from the primary visible range. The TypeScript
comparisons `d >= visibleLines / 2` use exact halving of an integer, which is
encoded as `2 * d ≥ visibleLines`. Returns the updated editor and the reveal
decision (`none` when no `revealRange` call is made). -/
def updateCursorPosInEditor (editor : Editor) (newLine newCol : Nat) :
    Editor × Option RevealType :=
  let vr := editor.visibleRange
  let p : Pos := ⟨newLine, newCol⟩
  let revealCursor : Sel := ⟨p, p⟩
  let editorAfter : Editor := { editor with selections := [revealCursor] }
  let visibleLines := vr.stop.line - vr.start.line
  let reveal : Option RevealType :=
    if rangeContainsPos vr p then
      some RevealType.default
    else if p.line < vr.start.line then
      some (if 2 * (vr.start.line - p.line) ≥ visibleLines then
        RevealType.default else RevealType.atTop)
    else if p.line > vr.stop.line then
      some (if 2 * (p.line - vr.stop.line) ≥ visibleLines then
        RevealType.inCenter else RevealType.default)
    else none
  (editorAfter, reveal)

/-- The reveal decision of the renderer, in isolation. -/
def revealDecision (editor : Editor) (newLine newCol : Nat) : Option RevealType :=
  (updateCursorPosInEditor editor newLine newCol).2

/-- Reference reveal policy, written from the spec's words (§4.3 / claim C1):
target within `[start, end]` gives an unconditional default reveal; target
line above the viewport gives a default ("jump") reveal when the distance is
at least half the height and an at-top reveal otherwise; target line below
gives a center reveal when the distance is at least half the height and a
default reveal otherwise; ties at `h/2` take the larger jump. `d ≥ h/2` is
encoded as `2 * d ≥ h`. -/
def revealDecisionSpec (vr : VRange) (target : Pos) : Option RevealType :=
  let h := vr.stop.line - vr.start.line
  if posLeb vr.start target && posLeb target vr.stop then
    some RevealType.default
  else if target.line < vr.start.line then
    some (if 2 * (vr.start.line - target.line) ≥ h then
      RevealType.default else RevealType.atTop)
  else if target.line > vr.stop.line then
    some (if 2 * (target.line - vr.stop.line) ≥ h then
      RevealType.inCenter else RevealType.default)
  else none

/-- `vscode.TextEditorSelectionChangeKind` (Keyboard = 1, Mouse = 2,
Command = 3; all truthy). `e.kind` may be absent, modelled with `Option`. -/
inductive SelKind where
  | keyboard
  | mouse
  | command
  deriving DecidableEq, Repr

/-- A `TextEditorSelectionChangeEvent`: the (always non-empty) selection list
is modelled as a head plus tail, and `kind` as an optional change kind. -/
structure SelChangeEvent where
  firstSel : Sel
  restSels : List Sel
  kind : Option SelKind
  deriving DecidableEq, Repr

/-- The environment `onSelectionChanged` consults: mode flags, the mouse
setting, the results of the window-id and grid-id lookups for the event's
editor, and whether that editor is `window.activeTextEditor`. -/
structure SelEnv where
  isInsertMode : Bool
  isVisualMode : Bool
  mouseSelectionEnabled : Bool
  winId : Option Nat
  gridId : Option Nat
  isActiveEditor : Bool
  deriving DecidableEq, Repr

/-- JavaScript truthiness of an optional numeric id: `undefined` and `0` are
falsy (`if (!winId) return;`, `if (... && grid)`). -/
def jsTruthy (o : Option Nat) : Bool :=
  match o with
  | none => false
  | some n => decide (n ≠ 0)

/-- An argument of an outgoing RPC request. -/
inductive RArg where
  | str (s : String)
  | num (n : Nat)
  | pair (p : Nat × Nat)
  | nums (l : List Nat)
  deriving DecidableEq, Repr

/-- An outgoing RPC request: method name and arguments. -/
abbrev Request := String × List RArg

/-- Observable effects of one `onSelectionChanged` invocation, in order:
awaiting the layout sync, awaiting the document-change completion lock,
resolving the window id, and each atomic RPC batch sent via
`client.callAtomic`. -/
inductive SelEffect where
  | awaitLayoutSync
  | awaitDocLock
  | resolveWinId
  | callAtomic (reqs : List Request)
  deriving DecidableEq, Repr

/-- Modelled from the spec: `editorPositionToNeovimPosition` lives in
`src/utils.ts`, which is not part of the given sources. Per §4.5 and the §8
examples, it converts a zero-based editor position to the engine's one-based
line with the column carried over: `(line, char) ↦ (line + 1, char)`. -/
def editorPositionToNeovimPosition (p : Pos) : Nat × Nat :=
  (p.line + 1, p.character)

/-- Modelled from the spec: `getNeovimCursorPosFromEditor` (also from
`src/utils.ts`) translates the editor's current active cursor position, which
during a selection-change event is the first selection's active position. -/
def getNeovimCursorPosFromEditor (firstSel : Sel) : Nat × Nat :=
  editorPositionToNeovimPosition firstSel.active

/-- Last element of a list, if any. -/
def lastOpt : List α → Option α
  | [] => none
  | [a] => some a
  | _ :: b :: t => lastOpt (b :: t)

/-- `CursorManager.onSelectionChanged` as the ordered list of its observable
effects. Mirrors the TypeScript control flow: drop in insert mode; await
layout sync and the document lock; resolve the window id (dropping when it is
absent or `0`, both falsy); then either the multi/non-collapsed branch (mouse
gated, optional visual-mode gesture when not in visual mode and the grid id
is truthy, cursor move to the last selection's active position) or the
collapsed branch (cursor move plus an optional jump-list entry). -/
def onSelectionChanged (env : SelEnv) (e : SelChangeEvent) : List SelEffect :=
  if env.isInsertMode then []
  else
    SelEffect.awaitLayoutSync :: SelEffect.awaitDocLock :: SelEffect.resolveWinId ::
      (if jsTruthy env.winId = false then []
       else
        let w := env.winId.getD 0
        let sels := e.firstSel :: e.restSels
        if sels.length > 1 ∨ ¬(e.firstSel.active = e.firstSel.anchor) then
          if ¬(e.kind = some SelKind.mouse) ∨ env.mouseSelectionEnabled = false then []
          else
            let gesture : List Request :=
              if env.isVisualMode = false ∧ jsTruthy env.gridId = true then
                let g := env.gridId.getD 0
                let mp := editorPositionToNeovimPosition e.firstSel.anchor
                [("nvim_input_mouse",
                   [RArg.str "left", RArg.str "press", RArg.str "", RArg.num g,
                    RArg.num (mp.1 - 1), RArg.num mp.2]),
                 ("nvim_input", [RArg.str "v"])]
              else []
            let lastSel := (lastOpt sels).getD e.firstSel
            let cp := editorPositionToNeovimPosition lastSel.active
            [SelEffect.callAtomic
              (gesture ++ [("nvim_win_set_cursor", [RArg.num w, RArg.pair cp])])]
        else
          let createJumpEntry :=
            (e.kind = none ∨ e.kind = some SelKind.command) ∧ env.isActiveEditor = true
          let cp := getNeovimCursorPosFromEditor e.firstSel
          [SelEffect.callAtomic
            (("nvim_win_set_cursor", [RArg.num w, RArg.pair cp]) ::
              (if createJumpEntry then
                 [("nvim_call_function", [RArg.str "VSCodeStoreJumpForWin", RArg.nums [w]])]
               else []))])

/-- One row of a `win_viewport` redraw event:
`[grid, win, topline, botline, curline, curcol]`. -/
structure ViewportRow where
  grid : Nat
  win : Nat
  topline : Nat
  botline : Nat
  curline : Nat
  curcol : Nat
  deriving DecidableEq, Repr

/-- One entry of a `mode_info_set` mode list. Absent `name`/`cursor_shape`
fields are modelled as `""`, which is falsy in the TypeScript guard. -/
structure ModeSpec where
  name : String
  cursor_shape : String
  deriving DecidableEq, Repr

/-- An inbound redraw batch entry, as a tagged variant of the event kinds the
cursor manager switches on; any other named event is `other`. -/
inductive RedrawEvent where
  | winViewport (rows : List ViewportRow)
  | modeInfoSet (modes : List ModeSpec)
  | modeChange (name : String)
  | other (name : String)
  deriving DecidableEq, Repr

/-- The value stored in `cursorModes`. -/
structure CursorInfo where
  cursorShape : String
  deriving DecidableEq, Repr

/-- `Map.set` with JavaScript semantics: an existing key keeps its insertion
position and gets the new value; a new key is appended. -/
def alSet [DecidableEq κ] : List (κ × α) → κ → α → List (κ × α)
  | [], k, v => [(k, v)]
  | (k2, v2) :: rest, k, v =>
    if k2 = k then (k, v) :: rest else (k2, v2) :: alSet rest k v

/-- `Map.get`: the value stored at a key, if any. -/
def alGet [DecidableEq κ] : List (κ × α) → κ → Option α
  | [], _ => none
  | (k2, v) :: rest, k => if k2 = k then some v else alGet rest k

/-- State threaded through the first loop of `handleRedrawBatch`: the
persistent `cursorModes` map, the per-batch `winCursorsUpdates` staging map,
and the inline `updateCursorStyle` invocations (mode name paired with the
style looked up at that moment). -/
structure ScanState where
  cursorModes : List (String × CursorInfo)
  staged : List (Nat × (Nat × Nat))
  styleUpdates : List (String × Option CursorInfo)
  deriving DecidableEq, Repr

/-- One step of the first loop of `handleRedrawBatch`: stage viewport rows
(last write wins per window), upsert well-named modes into `cursorModes`
(skipping entries with a falsy name or cursor shape), and apply mode changes
inline. -/
def scanStep (s : ScanState) : RedrawEvent → ScanState
  | RedrawEvent.winViewport rows =>
    { s with staged := rows.foldl (fun m r => alSet m r.win (r.curline, r.curcol)) s.staged }
  | RedrawEvent.modeInfoSet modes =>
    let cm := modes.foldl
      (fun m md =>
        if md.name = "" ∨ md.cursor_shape = "" then m
        else alSet m md.name ⟨md.cursor_shape⟩)
      s.cursorModes
    { s with cursorModes := cm }
  | RedrawEvent.modeChange n =>
    { s with styleUpdates := s.styleUpdates ++ [(n, alGet s.cursorModes n)] }
  | RedrawEvent.other _ => s

/-- The first loop of `handleRedrawBatch` over a whole batch, starting from
the current `cursorModes` map and an empty staging map. -/
def scanBatch (cursorModes : List (String × CursorInfo)) (batch : List RedrawEvent) :
    ScanState :=
  batch.foldl scanStep ⟨cursorModes, [], []⟩

/-- The second loop of `handleRedrawBatch`: walk the staged updates in map
order; a window with no bound editor is dropped with a warning (`continue`),
a bound one gets an update task scheduled with the staged position. Returns
the warned window ids and the scheduled `(editor, line, col)` applications. -/
def resolveStaged (getEditorFromWinId : Nat → Option Editor) :
    List (Nat × (Nat × Nat)) → List Nat × List (Editor × Nat × Nat)
  | [] => ([], [])
  | (w, lc) :: rest =>
    let (ws, sch) := resolveStaged getEditorFromWinId rest
    match getEditorFromWinId w with
    | none => (w :: ws, sch)
    | some ed => (ws, (ed, lc.1, lc.2) :: sch)

/-- `CursorManager.handleRedrawBatch`: scan the batch, then resolve every
staged window update. Returns the post-batch scan state, the warned window
ids and the scheduled cursor applications. -/
def handleRedrawBatch (getEditorFromWinId : Nat → Option Editor)
    (cursorModes : List (String × CursorInfo)) (batch : List RedrawEvent) :
    ScanState × List Nat × List (Editor × Nat × Nat) :=
  let s := scanBatch cursorModes batch
  let (ws, sch) := resolveStaged getEditorFromWinId s.staged
  (s, ws, sch)

/-- The staged `(curline, curcol)` values carried by `win_viewport` rows for
window `w`, in batch order. -/
def viewportRowsFor : List RedrawEvent → Nat → List (Nat × Nat)
  | [], _ => []
  | RedrawEvent.winViewport rows :: rest, w =>
    (rows.filter (fun r => r.win == w)).map (fun r => (r.curline, r.curcol))
      ++ viewportRowsFor rest w
  | _ :: rest, w => viewportRowsFor rest w

/-- The persistent state of a `CursorManager` instance: the `cursorModes` map
and whether the selection-change listener registered in the constructor is
still active. -/
structure CMState where
  cursorModes : List (String × CursorInfo)
  listenerActive : Bool
  deriving DecidableEq, Repr

/-- `CursorManager.dispose`: disposes every registered disposable (the
selection-change subscription) and nothing else; `cursorModes` is untouched. -/
def dispose (s : CMState) : CMState :=
  { s with listenerActive := false }

/-! Helper lemmas shared between claims. -/

theorem cons_length_gt_one (a : α) (l : List α) : (a :: l).length > 1 ↔ l ≠ [] := by
  cases l <;> simp

/-- C1: the reveal decision of `CursorRenderer.apply` (the `revealRange`
choice of `updateCursorPosInEditor`) equals the spec's reference reveal
policy on every editor and target position: default inside the visible
range, default/at-top above with the `h/2` threshold, center/default below
with the `h/2` threshold, ties taking the larger jump. -/
theorem reveal_matches_spec (editor : Editor) (newLine newCol : Nat) :
    revealDecision editor newLine newCol
      = revealDecisionSpec editor.visibleRange ⟨newLine, newCol⟩ := by
  rfl

/-- C9: `CursorRenderer.apply` is idempotent: a second application of the
same `(line, col)` leaves the selections identical, produces the identical
reveal decision, and the single application already yields exactly one
collapsed selection at `(line, col)`. -/
theorem updateCursorPos_idempotent (editor : Editor) (l c : Nat) :
    (updateCursorPosInEditor (updateCursorPosInEditor editor l c).1 l c).1.selections
        = (updateCursorPosInEditor editor l c).1.selections
      ∧ (updateCursorPosInEditor (updateCursorPosInEditor editor l c).1 l c).2
        = (updateCursorPosInEditor editor l c).2
      ∧ (updateCursorPosInEditor editor l c).1.selections = [⟨⟨l, c⟩, ⟨l, c⟩⟩] := by
  exact ⟨rfl, rfl, rfl⟩

/-- C4: while the engine is in insert mode, `onSelectionChanged` performs no
observable effect at all: no layout-sync await, no document-lock await, no
window-id resolution, no outgoing RPC. -/
theorem insert_mode_drops_selection_change (env : SelEnv) (e : SelChangeEvent)
    (h : env.isInsertMode = true) : onSelectionChanged env e = [] := by
  simp [onSelectionChanged, h]

/-- Witness for C4 at a concrete insert-mode environment and event. -/
theorem insert_mode_drops_selection_change_witness :
    (⟨true, false, true, some 4, some 7, true⟩ : SelEnv).isInsertMode = true
      ∧ onSelectionChanged ⟨true, false, true, some 4, some 7, true⟩
          ⟨⟨⟨2, 3⟩, ⟨2, 3⟩⟩, [], some SelKind.command⟩ = [] :=
  ⟨rfl, insert_mode_drops_selection_change _ _ rfl⟩

/-- C5: a multi-selection or non-collapsed selection change whose origin is
not the mouse, or with mouse selection forwarding disabled, never results in
an outgoing RPC batch. -/
theorem non_mouse_multi_selection_dropped (env : SelEnv) (e : SelChangeEvent)
    (hmulti : e.restSels ≠ [] ∨ e.firstSel.active ≠ e.firstSel.anchor)
    (hguard : ¬(e.kind = some SelKind.mouse) ∨ env.mouseSelectionEnabled = false) :
    ∀ reqs, SelEffect.callAtomic reqs ∉ onSelectionChanged env e := by
  intro reqs
  have hcond : (e.firstSel :: e.restSels).length > 1
      ∨ ¬(e.firstSel.active = e.firstSel.anchor) := by
    rcases hmulti with h | h
    · exact Or.inl ((cons_length_gt_one _ _).mpr h)
    · exact Or.inr h
  unfold onSelectionChanged
  by_cases hI : env.isInsertMode = true
  · simp [hI]
  · rw [if_neg hI]
    by_cases hw : jsTruthy env.winId = false
    · rw [if_pos hw]
      simp
    · rw [if_neg hw, if_pos hcond, if_pos hguard]
      simp

/-- Witness for C5: a keyboard-originated non-collapsed selection with
forwarding enabled emits no batch. -/
theorem non_mouse_multi_selection_dropped_witness :
    ((⟨⟨⟨0, 0⟩, ⟨1, 5⟩⟩, [], some SelKind.keyboard⟩ : SelChangeEvent).restSels ≠ []
        ∨ (⟨⟨⟨0, 0⟩, ⟨1, 5⟩⟩, [], some SelKind.keyboard⟩ : SelChangeEvent).firstSel.active
          ≠ (⟨⟨⟨0, 0⟩, ⟨1, 5⟩⟩, [], some SelKind.keyboard⟩ : SelChangeEvent).firstSel.anchor)
      ∧ SelEffect.callAtomic []
        ∉ onSelectionChanged ⟨false, false, true, some 4, some 7, true⟩
            ⟨⟨⟨0, 0⟩, ⟨1, 5⟩⟩, [], some SelKind.keyboard⟩ :=
  ⟨Or.inr (by decide),
   non_mouse_multi_selection_dropped _ _ (Or.inr (by decide)) (Or.inl (by decide)) []⟩

/-- C2: a mouse-originated multi/non-collapsed selection change with
forwarding enabled, a bound (truthy) window with a bound (truthy) grid and
the engine not in visual mode sends exactly one atomic batch: the synthetic
pointer press at the translated anchor of the first selection (row sent
zero-based, as `nvim_input_mouse` requires), the `v` keystroke, and the
cursor move to the translated active position of the last selection. -/
theorem mouse_multi_selection_batch (env : SelEnv) (e : SelChangeEvent) (w g : Nat)
    (hI : env.isInsertMode = false) (hV : env.isVisualMode = false)
    (hM : env.mouseSelectionEnabled = true) (hW : env.winId = some w) (hw : w ≠ 0)
    (hG : env.gridId = some g) (hg : g ≠ 0) (hK : e.kind = some SelKind.mouse)
    (hmulti : e.restSels ≠ [] ∨ e.firstSel.active ≠ e.firstSel.anchor) :
    onSelectionChanged env e =
      [SelEffect.awaitLayoutSync, SelEffect.awaitDocLock, SelEffect.resolveWinId,
       SelEffect.callAtomic
         [("nvim_input_mouse",
            [RArg.str "left", RArg.str "press", RArg.str "", RArg.num g,
             RArg.num ((editorPositionToNeovimPosition e.firstSel.anchor).1 - 1),
             RArg.num (editorPositionToNeovimPosition e.firstSel.anchor).2]),
          ("nvim_input", [RArg.str "v"]),
          ("nvim_win_set_cursor",
            [RArg.num w,
             RArg.pair (editorPositionToNeovimPosition
               (((lastOpt (e.firstSel :: e.restSels)).getD e.firstSel).active))])]] := by
  have hcond : (e.firstSel :: e.restSels).length > 1
      ∨ ¬(e.firstSel.active = e.firstSel.anchor) := by
    rcases hmulti with h | h
    · exact Or.inl ((cons_length_gt_one _ _).mpr h)
    · exact Or.inr h
  unfold onSelectionChanged
  rw [if_neg (by simp [hI])]
  rw [if_neg (by simp [jsTruthy, hW, hw])]
  rw [if_pos hcond]
  rw [if_neg (by simp [hK, hM])]
  rw [if_pos ⟨hV, by simp [jsTruthy, hG, hg]⟩]
  simp [hW, hG]

/-- Witness for C2 at the spec's example: anchor `(0,0)`, active `(1,5)`,
window 4, grid 7. -/
theorem mouse_multi_selection_batch_witness :
    (4 : Nat) ≠ 0 ∧ (7 : Nat) ≠ 0
      ∧ (([] : List Sel) ≠ []
          ∨ (⟨1, 5⟩ : Pos) ≠ (⟨0, 0⟩ : Pos))
      ∧ onSelectionChanged ⟨false, false, true, some 4, some 7, false⟩
          ⟨⟨⟨0, 0⟩, ⟨1, 5⟩⟩, [], some SelKind.mouse⟩ =
        [SelEffect.awaitLayoutSync, SelEffect.awaitDocLock, SelEffect.resolveWinId,
         SelEffect.callAtomic
           [("nvim_input_mouse",
              [RArg.str "left", RArg.str "press", RArg.str "", RArg.num 7,
               RArg.num 0, RArg.num 0]),
            ("nvim_input", [RArg.str "v"]),
            ("nvim_win_set_cursor", [RArg.num 4, RArg.pair (2, 5)])]] :=
  ⟨by decide, by decide, Or.inr (by decide),
   mouse_multi_selection_batch _ _ 4 7 rfl rfl rfl rfl (by decide) rfl (by decide)
     rfl (Or.inr (by decide))⟩

/-- C3: a single collapsed selection change whose kind is absent or
`Command`, on the focused editor, with a bound window, sends exactly one
atomic batch of the cursor move (one-based) followed by the
`VSCodeStoreJumpForWin` jump-record call. -/
theorem collapsed_selection_jump_batch (env : SelEnv) (e : SelChangeEvent) (w : Nat)
    (hI : env.isInsertMode = false) (hW : env.winId = some w) (hw : w ≠ 0)
    (hrest : e.restSels = []) (hcol : e.firstSel.active = e.firstSel.anchor)
    (hK : e.kind = none ∨ e.kind = some SelKind.command)
    (hA : env.isActiveEditor = true) :
    onSelectionChanged env e =
      [SelEffect.awaitLayoutSync, SelEffect.awaitDocLock, SelEffect.resolveWinId,
       SelEffect.callAtomic
         [("nvim_win_set_cursor",
            [RArg.num w, RArg.pair (getNeovimCursorPosFromEditor e.firstSel)]),
          ("nvim_call_function",
            [RArg.str "VSCodeStoreJumpForWin", RArg.nums [w]])]] := by
  unfold onSelectionChanged
  rw [if_neg (by simp [hI])]
  rw [if_neg (by simp [jsTruthy, hW, hw])]
  rw [if_neg (by simp [hrest, hcol])]
  simp [hW, hK, hA]

/-- Witness for C3 at the spec's example: collapsed change at `(2, 3)`,
kind `Command`, focused editor, window 4. -/
theorem collapsed_selection_jump_batch_witness :
    (4 : Nat) ≠ 0
      ∧ ((some SelKind.command : Option SelKind) = none
          ∨ (some SelKind.command : Option SelKind) = some SelKind.command)
      ∧ onSelectionChanged ⟨false, false, true, some 4, some 7, true⟩
          ⟨⟨⟨2, 3⟩, ⟨2, 3⟩⟩, [], some SelKind.command⟩ =
        [SelEffect.awaitLayoutSync, SelEffect.awaitDocLock, SelEffect.resolveWinId,
         SelEffect.callAtomic
           [("nvim_win_set_cursor", [RArg.num 4, RArg.pair (3, 3)]),
            ("nvim_call_function",
              [RArg.str "VSCodeStoreJumpForWin", RArg.nums [4]])]] :=
  ⟨by decide, Or.inr rfl,
   collapsed_selection_jump_batch _ _ 4 rfl rfl (by decide) rfl rfl (Or.inr rfl) rfl⟩

/-- C10: in the mouse multi-selection path, when the engine is not in visual
mode but the grid lookup for the window returns nothing, the visual-mode
gesture is omitted and the atomic batch holds only the cursor move to the
last selection's translated active position. -/
theorem mouse_multi_selection_no_grid (env : SelEnv) (e : SelChangeEvent) (w : Nat)
    (hI : env.isInsertMode = false) (_hV : env.isVisualMode = false)
    (hM : env.mouseSelectionEnabled = true) (hW : env.winId = some w) (hw : w ≠ 0)
    (hG : env.gridId = none) (hK : e.kind = some SelKind.mouse)
    (hmulti : e.restSels ≠ [] ∨ e.firstSel.active ≠ e.firstSel.anchor) :
    onSelectionChanged env e =
      [SelEffect.awaitLayoutSync, SelEffect.awaitDocLock, SelEffect.resolveWinId,
       SelEffect.callAtomic
         [("nvim_win_set_cursor",
            [RArg.num w,
             RArg.pair (editorPositionToNeovimPosition
               (((lastOpt (e.firstSel :: e.restSels)).getD e.firstSel).active))])]] := by
  have hcond : (e.firstSel :: e.restSels).length > 1
      ∨ ¬(e.firstSel.active = e.firstSel.anchor) := by
    rcases hmulti with h | h
    · exact Or.inl ((cons_length_gt_one _ _).mpr h)
    · exact Or.inr h
  unfold onSelectionChanged
  rw [if_neg (by simp [hI])]
  rw [if_neg (by simp [jsTruthy, hW, hw])]
  rw [if_pos hcond]
  rw [if_neg (by simp [hK, hM])]
  rw [if_neg (by simp [jsTruthy, hG])]
  simp [hW]

/-- Witness for C10: mouse non-collapsed selection, window 4 bound, grid
lookup empty; only the cursor move is sent. -/
theorem mouse_multi_selection_no_grid_witness :
    (4 : Nat) ≠ 0
      ∧ (([] : List Sel) ≠ [] ∨ (⟨1, 5⟩ : Pos) ≠ (⟨0, 0⟩ : Pos))
      ∧ onSelectionChanged ⟨false, false, true, some 4, none, false⟩
          ⟨⟨⟨0, 0⟩, ⟨1, 5⟩⟩, [], some SelKind.mouse⟩ =
        [SelEffect.awaitLayoutSync, SelEffect.awaitDocLock, SelEffect.resolveWinId,
         SelEffect.callAtomic
           [("nvim_win_set_cursor", [RArg.num 4, RArg.pair (2, 5)])]] :=
  ⟨by decide, Or.inr (by decide),
   mouse_multi_selection_no_grid _ _ 4 rfl rfl rfl rfl (by decide) rfl rfl
     (Or.inr (by decide))⟩

/-! Map lemmas for the redraw dispatcher. -/

theorem alGet_alSet_self [DecidableEq κ] (m : List (κ × α)) (k : κ) (v : α) :
    alGet (alSet m k v) k = some v := by
  induction m with
  | nil => simp [alSet, alGet]
  | cons kv rest ih =>
    obtain ⟨k2, v2⟩ := kv
    by_cases h : k2 = k
    · simp [alSet, h, alGet]
    · simp [alSet, h, alGet, ih]

theorem alGet_alSet_ne [DecidableEq κ] (m : List (κ × α)) (k k2 : κ) (v : α)
    (h : k2 ≠ k) : alGet (alSet m k v) k2 = alGet m k2 := by
  induction m with
  | nil => simp [alSet, alGet, Ne.symm h]
  | cons kv rest ih =>
    obtain ⟨k3, v3⟩ := kv
    by_cases h3 : k3 = k
    · subst h3
      simp [alSet, alGet, h, Ne.symm h]
    · by_cases h2 : k3 = k2 <;> simp [alSet, alGet, h3, h2, h, ih]

theorem alGet_mem [DecidableEq κ] (m : List (κ × α)) (k : κ) (v : α)
    (h : alGet m k = some v) : (k, v) ∈ m := by
  induction m with
  | nil => simp [alGet] at h
  | cons kv rest ih =>
    obtain ⟨k2, v2⟩ := kv
    by_cases h2 : k2 = k
    · subst h2
      simp [alGet] at h
      simp [h]
    · simp [alGet, h2] at h
      exact List.mem_cons_of_mem _ (ih h)

theorem lastOpt_cons (x : α) (l : List α) :
    lastOpt (x :: l) = some ((lastOpt l).getD x) := by
  induction l generalizing x with
  | nil => rfl
  | cons y t ih =>
    show lastOpt (y :: t) = some ((lastOpt (y :: t)).getD x)
    rw [ih y]
    simp

/-- The last element of `l`, falling back to `o` when `l` is empty. -/
def lastOr (l : List α) (o : Option α) : Option α :=
  match lastOpt l with
  | some a => some a
  | none => o

theorem lastOr_cons (x : α) (l : List α) (o : Option α) :
    lastOr (x :: l) o = lastOr l (some x) := by
  rw [lastOr, lastOpt_cons]
  cases h : lastOpt l <;> simp [lastOr, h]

theorem lastOr_append (l1 l2 : List α) (o : Option α) :
    lastOr (l1 ++ l2) o = lastOr l2 (lastOr l1 o) := by
  induction l1 generalizing o with
  | nil => cases h : lastOpt l2 <;> simp [lastOr, lastOpt, h]
  | cons x t ih => rw [List.cons_append, lastOr_cons, ih, lastOr_cons]

theorem alGet_stageRows (rows : List ViewportRow) (m : List (Nat × (Nat × Nat)))
    (w : Nat) :
    alGet (rows.foldl (fun m r => alSet m r.win (r.curline, r.curcol)) m) w
      = lastOr ((rows.filter (fun r => r.win == w)).map
          (fun r => (r.curline, r.curcol))) (alGet m w) := by
  induction rows generalizing m with
  | nil => simp [lastOr, lastOpt]
  | cons r t ih =>
    by_cases h : r.win = w
    · rw [List.foldl_cons, ih]
      simp only [List.filter_cons, h]
      simp [lastOr_cons, h, alGet_alSet_self]
    · rw [List.foldl_cons, ih]
      simp only [List.filter_cons]
      have hb : (r.win == w) = false := by simp [h]
      simp only [hb, Bool.false_eq_true, if_false]
      rw [alGet_alSet_ne _ _ _ _ (fun hk => h hk.symm)]

theorem alGet_scan_staged (batch : List RedrawEvent) (s : ScanState) (w : Nat) :
    alGet ((batch.foldl scanStep s).staged) w
      = lastOr (viewportRowsFor batch w) (alGet s.staged w) := by
  induction batch generalizing s with
  | nil => simp [lastOr, lastOpt, viewportRowsFor]
  | cons ev rest ih =>
    cases ev with
    | winViewport rows =>
      rw [List.foldl_cons, ih]
      show _ = lastOr (_ ++ viewportRowsFor rest w) _
      rw [lastOr_append]
      rw [show (scanStep s (RedrawEvent.winViewport rows)).staged
            = rows.foldl (fun m r => alSet m r.win (r.curline, r.curcol)) s.staged
          from rfl]
      rw [alGet_stageRows]
    | modeInfoSet modes => rw [List.foldl_cons, ih]; rfl
    | modeChange n => rw [List.foldl_cons, ih]; rfl
    | other n => rw [List.foldl_cons, ih]; rfl

theorem resolveStaged_warned (g : Nat → Option Editor)
    (staged : List (Nat × (Nat × Nat))) :
    (resolveStaged g staged).1
      = (staged.filter (fun p => (g p.1).isNone)).map Prod.fst := by
  induction staged with
  | nil => rfl
  | cons p rest ih =>
    obtain ⟨w, lc⟩ := p
    cases hg : g w <;> simp [resolveStaged, hg, ih]

theorem resolveStaged_scheduled (g : Nat → Option Editor)
    (staged : List (Nat × (Nat × Nat))) :
    (resolveStaged g staged).2
      = staged.filterMap (fun p => (g p.1).map (fun ed => (ed, p.2.1, p.2.2))) := by
  induction staged with
  | nil => rfl
  | cons p rest ih =>
    obtain ⟨w, lc⟩ := p
    cases hg : g w <;> simp [resolveStaged, hg, ih]

/-- C6: unbound staged window ids never abort batch processing. The warned
window ids are exactly the staged ids with no bound editor, and the
scheduled cursor applications are exactly the staged updates whose window
resolves to an editor — so each unbound id is dropped with a warning while
every other staged update in the same batch is still resolved and
scheduled. -/
theorem unbound_window_drop_and_warn (g : Nat → Option Editor)
    (cursorModes : List (String × CursorInfo)) (batch : List RedrawEvent) :
    (handleRedrawBatch g cursorModes batch).2.1
        = ((scanBatch cursorModes batch).staged.filter
            (fun p => (g p.1).isNone)).map Prod.fst
      ∧ (handleRedrawBatch g cursorModes batch).2.2
        = (scanBatch cursorModes batch).staged.filterMap
            (fun p => (g p.1).map (fun ed => (ed, p.2.1, p.2.2))) := by
  constructor
  · show (resolveStaged g (scanBatch cursorModes batch).staged).1 = _
    exact resolveStaged_warned g _
  · show (resolveStaged g (scanBatch cursorModes batch).staged).2 = _
    exact resolveStaged_scheduled g _

/-- C7: last write wins within a batch. If the last `win_viewport` row for
window `w` in the batch carries `(l, c)`, then `(l, c)` is what is staged
for `w`, and when `w` resolves to an editor the scheduled application for
that editor uses exactly `(l, c)`. -/
theorem last_viewport_update_wins (g : Nat → Option Editor)
    (cursorModes : List (String × CursorInfo)) (batch : List RedrawEvent)
    (w l c : Nat) (ed : Editor)
    (h1 : lastOpt (viewportRowsFor batch w) = some (l, c))
    (h2 : g w = some ed) :
    alGet (scanBatch cursorModes batch).staged w = some (l, c)
      ∧ (ed, l, c) ∈ (handleRedrawBatch g cursorModes batch).2.2 := by
  have hget : alGet (scanBatch cursorModes batch).staged w = some (l, c) := by
    rw [scanBatch, alGet_scan_staged, lastOr, h1]
  refine ⟨hget, ?_⟩
  have hmem : (w, (l, c)) ∈ (scanBatch cursorModes batch).staged :=
    alGet_mem _ _ _ hget
  have hsch : (handleRedrawBatch g cursorModes batch).2.2
      = (scanBatch cursorModes batch).staged.filterMap
          (fun p => (g p.1).map (fun ed => (ed, p.2.1, p.2.2))) :=
    resolveStaged_scheduled g _
  rw [hsch]
  exact List.mem_filterMap.mpr ⟨(w, (l, c)), hmem, by simp [h2]⟩

/-- Witness for C7: two `win_viewport` events for window 3 in one batch; the
second, carrying `(7, 4)`, is what is staged and scheduled. -/
theorem last_viewport_update_wins_witness :
    lastOpt (viewportRowsFor
        [RedrawEvent.winViewport [⟨1, 3, 0, 10, 5, 2⟩],
         RedrawEvent.winViewport [⟨1, 3, 0, 10, 7, 4⟩]] 3) = some (7, 4)
      ∧ (fun w => if w = 3 then some (⟨[], ⟨⟨0, 0⟩, ⟨10, 0⟩⟩⟩ : Editor) else none) 3
          = some ⟨[], ⟨⟨0, 0⟩, ⟨10, 0⟩⟩⟩
      ∧ (alGet (scanBatch []
            [RedrawEvent.winViewport [⟨1, 3, 0, 10, 5, 2⟩],
             RedrawEvent.winViewport [⟨1, 3, 0, 10, 7, 4⟩]]).staged 3 = some (7, 4)
          ∧ ((⟨[], ⟨⟨0, 0⟩, ⟨10, 0⟩⟩⟩ : Editor), 7, 4) ∈
            (handleRedrawBatch
              (fun w => if w = 3 then some (⟨[], ⟨⟨0, 0⟩, ⟨10, 0⟩⟩⟩ : Editor) else none)
              []
              [RedrawEvent.winViewport [⟨1, 3, 0, 10, 5, 2⟩],
               RedrawEvent.winViewport [⟨1, 3, 0, 10, 7, 4⟩]]).2.2) :=
  ⟨by decide, by decide,
   last_viewport_update_wins _ _ _ 3 7 4 _ (by decide) (by decide)⟩

theorem alGet_alSet_isSome [DecidableEq κ] (m : List (κ × α)) (k k2 : κ) (v : α)
    (h : (alGet m k).isSome = true) : (alGet (alSet m k2 v) k).isSome = true := by
  by_cases hk : k2 = k
  · subst hk
    rw [alGet_alSet_self]
    rfl
  · rw [alGet_alSet_ne _ _ _ _ (fun he => hk he.symm)]
    exact h

theorem modesFold_preserves_isSome (modes : List ModeSpec)
    (m : List (String × CursorInfo)) (k : String)
    (h : (alGet m k).isSome = true) :
    (alGet (modes.foldl
        (fun m md =>
          if md.name = "" ∨ md.cursor_shape = "" then m
          else alSet m md.name ⟨md.cursor_shape⟩) m) k).isSome = true := by
  induction modes generalizing m with
  | nil => exact h
  | cons md t ih =>
    rw [List.foldl_cons]
    by_cases hmd : md.name = "" ∨ md.cursor_shape = ""
    · rw [if_pos hmd]
      exact ih m h
    · rw [if_neg hmd]
      exact ih _ (alGet_alSet_isSome _ _ _ _ h)

theorem scan_preserves_cursorModes_isSome (batch : List RedrawEvent)
    (s : ScanState) (k : String)
    (h : (alGet s.cursorModes k).isSome = true) :
    (alGet ((batch.foldl scanStep s).cursorModes) k).isSome = true := by
  induction batch generalizing s with
  | nil => exact h
  | cons ev rest ih =>
    rw [List.foldl_cons]
    cases ev with
    | winViewport rows => exact ih _ h
    | modeInfoSet modes => exact ih _ (modesFold_preserves_isSome modes _ _ h)
    | modeChange n => exact ih _ h
    | other n => exact ih _ h

/-- C8 counterexample: `dispose` does not clear the mode-style map. A manager
whose `cursorModes` holds an entry keeps it, unchanged, after `dispose` —
refuting "the mode-style map is cleared on full disposal": `dispose` only
disposes the registered listeners. -/
theorem dispose_does_not_clear_cursorModes :
    (dispose ⟨[("insert", ⟨"vertical"⟩)], true⟩).cursorModes
        = [("insert", ⟨"vertical"⟩)]
      ∧ (dispose ⟨[("insert", ⟨"vertical"⟩)], true⟩).cursorModes ≠ [] := by
  exact ⟨rfl, by decide⟩

/-- C8 amended: no operation ever removes an entry from the mode-style map —
disposal leaves the map entirely unchanged (it does not clear it), and
redraw-batch processing (whose `mode_info_set` handling only inserts or
overwrites) keeps every existing key present. -/
theorem cursorModes_entries_never_removed (s : CMState)
    (cursorModes : List (String × CursorInfo)) (batch : List RedrawEvent)
    (k : String) (h : (alGet cursorModes k).isSome = true) :
    (dispose s).cursorModes = s.cursorModes
      ∧ (alGet (scanBatch cursorModes batch).cursorModes k).isSome = true := by
  refine ⟨rfl, ?_⟩
  exact scan_preserves_cursorModes_isSome batch ⟨cursorModes, [], []⟩ k h

/-- Witness for the amended C8: a map holding mode `n` still holds it after a
batch that redefines `n`, and `dispose` leaves state untouched. -/
theorem cursorModes_entries_never_removed_witness :
    (alGet [("n", (⟨"block"⟩ : CursorInfo))] "n").isSome = true
      ∧ ((dispose ⟨[("n", ⟨"block"⟩)], true⟩).cursorModes
            = (⟨[("n", ⟨"block"⟩)], true⟩ : CMState).cursorModes
          ∧ (alGet (scanBatch [("n", ⟨"block"⟩)]
              [RedrawEvent.modeInfoSet [⟨"n", "horizontal"⟩]]).cursorModes "n").isSome
            = true) :=
  ⟨by decide,
   cursorModes_entries_never_removed _ _ [RedrawEvent.modeInfoSet [⟨"n", "horizontal"⟩]]
     "n" (by decide)⟩

end VCN
